import Mathlib

/-!
Verification of the Chutes AI image proxy (`src/server.py`).

The development shallowly embeds the pieces of the source that the
specification talks about:

* the path parser inlined in `generate_image` (lines 428-461),
* the cache key `get_cache_key` (lines 331-335), including a full MD5,
* the model registry `KNOWN_MODELS` / `get_model_info` (lines 19-54, 95-113),
* the profile learner `parse_curl_request` (lines 115-153),
* the payload and status handling of `request_chutes_image` (lines 352-420),
* the request handler `generate_image` (lines 428-483), with the cache as an
  explicit association list and the network as an explicit oracle.

Python strings are modelled as `String` / `List Char`; Python ints as `Nat`
(all integers reaching the modelled code are nonnegative decimal parses).
The character classes behind `str.strip`, `str.isdigit` and `int()` follow
CPython exactly, via explicit code-point tables.
-/

/-! ### Decimal digits

`digitsVal` evaluates a list of ASCII digit characters as a decimal number,
`natDecimal` renders a number in decimal (the embedding of Python's
`f"{n}"` / `str(n)` for nonnegative `n`).  `natDecimalAux` uses an explicit
fuel argument (any fuel above the digit count gives the same answer) so that
it is structurally recursive and kernel-reducible. -/

def digitsVal (l : List Char) : Nat :=
  l.foldl (fun a c => 10 * a + (c.toNat - 48)) 0

def digitChar (n : Nat) : Char :=
  Char.ofNat (48 + n)

def natDecimalAux : Nat → Nat → List Char
  | 0, _ => []
  | fuel + 1, n =>
    if n < 10 then [digitChar n]
    else natDecimalAux fuel (n / 10) ++ [digitChar (n % 10)]

def natDecimal (n : Nat) : List Char :=
  natDecimalAux (n + 1) n

/-- Embedding of Python `f"{n}"` for a nonnegative integer `n`. -/
def pyIntRepr (n : Nat) : String :=
  ⟨natDecimal n⟩

/-! ### CPython character classes

Python's `str.strip()` removes exactly the characters for which
`str.isspace()` holds; `str.isdigit()` holds for the decimal digits (the
characters `int()` parses, organized in blocks of ten consecutive code
points, each worth `code - base`) and for a further fixed set of digit
characters (superscripts, circled digits, ...) that `int()` rejects.  The
three tables below are the exact sets of CPython 3. -/

def pySpaceCodes : List Nat :=
  [9, 10, 11, 12, 13, 28, 29, 30, 31, 32, 133, 160, 5760, 8192, 8193, 8194,
   8195, 8196, 8197, 8198, 8199, 8200, 8201, 8202, 8232, 8233, 8239, 8287,
   12288]

/-- Python `str.isspace` for a single character. -/
def pyIsSpace (c : Char) : Bool :=
  pySpaceCodes.contains c.toNat

/-- First code points of the blocks of ten consecutive decimal-digit
characters; `int()` parses exactly these characters, each worth
`code - base`. -/
def pyDecimalBases : List Nat :=
  [48, 1632, 1776, 1984, 2406, 2534, 2662, 2790, 2918, 3046, 3174, 3302,
   3430, 3558, 3664, 3792, 3872, 4160, 4240, 6112, 6160, 6470, 6608, 6784,
   6800, 6992, 7088, 7232, 7248, 42528, 43216, 43264, 43472, 43504, 43600,
   44016, 65296, 66720, 68912, 69734, 69872, 69942, 70096, 70384, 70736,
   70864, 71248, 71360, 71472, 71904, 72016, 72784, 73040, 73120, 92768,
   92864, 93008, 120782, 120792, 120802, 120812, 120822, 123200, 123632,
   125264, 130032]

/-- The decimal value Python's `int()` assigns to a character, when any. -/
def pyDigitVal? (c : Char) : Option Nat :=
  (pyDecimalBases.find? (fun b => b ≤ c.toNat && c.toNat ≤ b + 9)).map
    (fun b => c.toNat - b)

/-- Digit characters accepted by `str.isdigit` but rejected by `int()`. -/
def pyExtraDigitCodes : List Nat :=
  [178, 179, 185, 4969, 4970, 4971, 4972, 4973, 4974, 4975, 4976, 4977,
   6618, 8304, 8308, 8309, 8310, 8311, 8312, 8313, 8320, 8321, 8322, 8323,
   8324, 8325, 8326, 8327, 8328, 8329, 9312, 9313, 9314, 9315, 9316, 9317,
   9318, 9319, 9320, 9332, 9333, 9334, 9335, 9336, 9337, 9338, 9339, 9340,
   9352, 9353, 9354, 9355, 9356, 9357, 9358, 9359, 9360, 9450, 9461, 9462,
   9463, 9464, 9465, 9466, 9467, 9468, 9469, 9471, 10102, 10103, 10104,
   10105, 10106, 10107, 10108, 10109, 10110, 10112, 10113, 10114, 10115,
   10116, 10117, 10118, 10119, 10120, 10122, 10123, 10124, 10125, 10126,
   10127, 10128, 10129, 10130, 68160, 68161, 68162, 68163, 69216, 69217,
   69218, 69219, 69220, 69221, 69222, 69223, 69224, 69714, 69715, 69716,
   69717, 69718, 69719, 69720, 69721, 69722, 127232, 127233, 127234,
   127235, 127236, 127237, 127238, 127239, 127240, 127241, 127242]

/-- Python `str.isdigit` for a single character. -/
def pyIsDigitChar (c : Char) : Bool :=
  (pyDigitVal? c).isSome || pyExtraDigitCodes.contains c.toNat

/-- Base-10 value of a list of decimal-digit characters, as `int()`
computes it. -/
def pyIntVal (l : List Char) : Nat :=
  l.foldl (fun a c => 10 * a + (pyDigitVal? c).getD 0) 0

/-- Embedding of Python `int(s)` on the strings produced by splitting a
guard-passed resolution segment (every character of such a string satisfies
`str.isdigit`, which rules out signs, underscores and whitespace): `int()`
succeeds exactly when the string is nonempty and every character is a
decimal digit, and then yields the base-10 value. -/
def pyInt (l : List Char) : Option Nat :=
  if l ≠ [] ∧ l.all (fun c => (pyDigitVal? c).isSome) then some (pyIntVal l)
  else none

/-! ### The path parser (source lines 428-461)

`generate_image` receives the percent-decoded path, splits it on `/`, takes
segment 0 as the prompt and folds the remaining segments through the loop of
lines 444-461.  Python's `str.split('/')` and `str.split('x')` are splits on
a single character, modelled by `splitOnChar`; `str.strip` is `stripChars`. -/

def splitOnChar (c : Char) : List Char → List (List Char)
  | [] => [[]]
  | a :: rest =>
    match splitOnChar c rest with
    | s :: ss => if a = c then [] :: s :: ss else (a :: s) :: ss
    | [] => [[a]]

def stripChars (l : List Char) : List Char :=
  ((l.dropWhile pyIsSpace).reverse.dropWhile pyIsSpace).reverse

structure GenerationRequest where
  prompt : String
  negative_prompt : String
  width : Nat
  height : Nat
deriving DecidableEq, Repr

structure ParseState where
  negative_prompt : String
  width : Nat
  height : Nat
deriving DecidableEq, Repr

/-- The guard of line 449: `'x' in part and part.replace('x','').isdigit()`
(Python `isdigit` is true exactly on nonempty all-digit strings). -/
def resGuard (part : List Char) : Bool :=
  part.any (fun c => c == 'x') &&
    !(part.filter (fun c => c != 'x')).isEmpty &&
    (part.filter (fun c => c != 'x')).all (fun c => pyIsDigitChar c)

/-- The negative-prompt fallthrough of lines 458-461: the segment becomes the
negative prompt only if none is set yet. -/
def negCheck (st : ParseState) (part : List Char) : ParseState :=
  if st.negative_prompt = "" then { st with negative_prompt := ⟨part⟩ } else st

/-- One iteration of the loop of lines 444-461.  Mirrors Python exactly:
on the resolution branch, `width = int(w)` is assigned before
`height = int(h)` is attempted, so a failure of the latter keeps the new
width (and control falls through to the negative-prompt check, as the
`continue` is only reached on full success). -/
def processPart (st : ParseState) (part0 : List Char) : ParseState :=
  let part := stripChars part0
  if part = [] ∨ part = ['-'] then st
  else if resGuard part then
    match splitOnChar 'x' (part.map Char.toLower) with
    | [w, h] =>
      match pyInt w with
      | some wn =>
        match pyInt h with
        | some hn => { st with width := wn, height := hn }
        | none => negCheck { st with width := wn } part
      | none => negCheck st part
    | _ => negCheck st part
  else negCheck st part

/-- The parsing performed by `generate_image` on the decoded path
(lines 430-461): segment 0 is the prompt, the remaining segments are folded
through `processPart` starting from the defaults
(`negative_prompt = ""`, `width = height = 1024`). -/
def parseParams (params : String) : GenerationRequest :=
  let parts := splitOnChar '/' params.data
  let st := (parts.drop 1).foldl processPart ⟨"", 1024, 1024⟩
  ⟨⟨parts.headD []⟩, st.negative_prompt, st.width, st.height⟩

/-! ### The cache key (source lines 331-335)

`get_cache_key` concatenates the four request fields with `||`, feeds the
UTF-8 bytes through MD5 and appends `.jpg`.  The MD5 below is a direct
transcription of RFC 1321 over `Nat` with explicit reduction mod `2 ^ 32`;
bytes are `Nat`s below 256. -/

def md5K : List Nat := [
  0xd76aa478, 0xe8c7b756, 0x242070db, 0xc1bdceee, 0xf57c0faf, 0x4787c62a, 0xa8304613, 0xfd469501,
  0x698098d8, 0x8b44f7af, 0xffff5bb1, 0x895cd7be, 0x6b901122, 0xfd987193, 0xa679438e, 0x49b40821,
  0xf61e2562, 0xc040b340, 0x265e5a51, 0xe9b6c7aa, 0xd62f105d, 0x02441453, 0xd8a1e681, 0xe7d3fbc8,
  0x21e1cde6, 0xc33707d6, 0xf4d50d87, 0x455a14ed, 0xa9e3e905, 0xfcefa3f8, 0x676f02d9, 0x8d2a4c8a,
  0xfffa3942, 0x8771f681, 0x6d9d6122, 0xfde5380c, 0xa4beea44, 0x4bdecfa9, 0xf6bb4b60, 0xbebfbc70,
  0x289b7ec6, 0xeaa127fa, 0xd4ef3085, 0x04881d05, 0xd9d4d039, 0xe6db99e5, 0x1fa27cf8, 0xc4ac5665,
  0xf4292244, 0x432aff97, 0xab9423a7, 0xfc93a039, 0x655b59c3, 0x8f0ccc92, 0xffeff47d, 0x85845dd1,
  0x6fa87e4f, 0xfe2ce6e0, 0xa3014314, 0x4e0811a1, 0xf7537e82, 0xbd3af235, 0x2ad7d2bb, 0xeb86d391]

def md5S : List Nat := [
  7, 12, 17, 22, 7, 12, 17, 22, 7, 12, 17, 22, 7, 12, 17, 22,
  5, 9, 14, 20, 5, 9, 14, 20, 5, 9, 14, 20, 5, 9, 14, 20,
  4, 11, 16, 23, 4, 11, 16, 23, 4, 11, 16, 23, 4, 11, 16, 23,
  6, 10, 15, 21, 6, 10, 15, 21, 6, 10, 15, 21, 6, 10, 15, 21]

def rotl32 (x s : Nat) : Nat :=
  ((x <<< s) ||| (x >>> (32 - s))) % 4294967296

def md5word (chunk : List Nat) (g : Nat) : Nat :=
  chunk.getD (4 * g) 0 + 256 * chunk.getD (4 * g + 1) 0 +
    65536 * chunk.getD (4 * g + 2) 0 + 16777216 * chunk.getD (4 * g + 3) 0

def md5round (M : Nat → Nat) (st : Nat × Nat × Nat × Nat) (i : Nat) : Nat × Nat × Nat × Nat :=
  let A := st.1
  let B := st.2.1
  let C := st.2.2.1
  let D := st.2.2.2
  let Fg : Nat × Nat :=
    if i < 16 then ((B &&& C) ||| ((B ^^^ 4294967295) &&& D), i)
    else if i < 32 then ((D &&& B) ||| ((D ^^^ 4294967295) &&& C), (5 * i + 1) % 16)
    else if i < 48 then (B ^^^ C ^^^ D, (3 * i + 5) % 16)
    else (C ^^^ (B ||| (D ^^^ 4294967295)), (7 * i) % 16)
  let F2 := (Fg.1 + A + md5K.getD i 0 + M Fg.2) % 4294967296
  (D, (B + rotl32 F2 (md5S.getD i 0)) % 4294967296, B, C)

def md5chunk (chunk : List Nat) (st : Nat × Nat × Nat × Nat) : Nat × Nat × Nat × Nat :=
  let r := (List.range 64).foldl (md5round (md5word chunk)) st
  ((st.1 + r.1) % 4294967296, (st.2.1 + r.2.1) % 4294967296,
   (st.2.2.1 + r.2.2.1) % 4294967296, (st.2.2.2 + r.2.2.2) % 4294967296)

def md5chunksAux : Nat → List Nat → Nat × Nat × Nat × Nat → Nat × Nat × Nat × Nat
  | 0, _, st => st
  | fuel + 1, bytes, st =>
    if bytes.length < 64 then st
    else md5chunksAux fuel (bytes.drop 64) (md5chunk (bytes.take 64) st)

def md5pad (msg : List Nat) : List Nat :=
  let bitLen := (msg.length * 8) % 18446744073709551616
  let zeros := (56 + 64 - (msg.length + 1) % 64) % 64
  msg ++ [0x80] ++ List.replicate zeros 0 ++
    [bitLen % 256, bitLen / 256 % 256, bitLen / 65536 % 256, bitLen / 16777216 % 256,
     bitLen / 4294967296 % 256, bitLen / 1099511627776 % 256,
     bitLen / 281474976710656 % 256, bitLen / 72057594037927936 % 256]

def wordLeBytes (w : Nat) : List Nat :=
  [w % 256, w / 256 % 256, w / 65536 % 256, w / 16777216 % 256]

def md5 (msg : List Nat) : List Nat :=
  let padded := md5pad msg
  let r := md5chunksAux padded.length padded (0x67452301, 0xefcdab89, 0x98badcfe, 0x10325476)
  wordLeBytes r.1 ++ wordLeBytes r.2.1 ++ wordLeBytes r.2.2.1 ++ wordLeBytes r.2.2.2

def hexDigit (n : Nat) : Char :=
  if n < 10 then Char.ofNat (48 + n) else Char.ofNat (87 + n)

/-- Lowercase hexadecimal rendering of a byte list (Python `hexdigest()`). -/
def bytesHex (bs : List Nat) : String :=
  ⟨bs.foldr (fun b acc => hexDigit (b / 16) :: hexDigit (b % 16) :: acc) []⟩

/-- Python `s.encode('utf-8')` as a list of byte values. -/
def utf8Bytes (s : String) : List Nat :=
  s.toUTF8.toList.map (fun b => b.toNat)

/-- The pre-digest encoding of line 333:
`cache_string = f"{prompt}||{negative_prompt}||{width}||{height}"`. -/
def cacheString (prompt negative_prompt : String) (width height : Nat) : String :=
  prompt ++ "||" ++ negative_prompt ++ "||" ++ pyIntRepr width ++ "||" ++ pyIntRepr height

/-- `get_cache_key` of lines 331-335: MD5 hexdigest of the UTF-8 bytes of the
cache string, with the `.jpg` extension. -/
def get_cache_key (prompt negative_prompt : String) (width height : Nat) : String :=
  bytesHex (md5 (utf8Bytes (cacheString prompt negative_prompt width height))) ++ ".jpg"

/-! ### Model registry and configuration (source lines 19-54, 95-113)

Python model-metadata dicts have a mandatory `type` and optional
`url_template` / `supports_negative` / `resolution_format` keys; the
optional entries are modelled with `Option` and read with `Option.getD`,
mirroring `dict.get(key, default)`. -/

structure ModelInfo where
  type : String
  url_template : String := ""
  supports_negative : Option Bool := none
  resolution_format : Option String := none
deriving DecidableEq, Repr

def KNOWN_MODELS : List (String × ModelInfo) := [
  ("qwen-image", { type := "unified" }),
  ("JuggernautXL-Ragnarok", { type := "unified" }),
  ("FLUX.1-schnell", { type := "unified" }),
  ("HassakuXL", { type := "unified" }),
  ("Illustrij", { type := "unified" }),
  ("stabilityai/stable-diffusion-xl-base-1.0", { type := "unified" }),
  ("diagonalge/Booba", { type := "unified" }),
  ("NovaFurryXL", { type := "unified" }),
  ("iLustMix", { type := "unified" }),
  ("Animij", { type := "unified" }),
  ("Lykon/dreamshaper-xl-1-0", { type := "unified" }),
  ("JuggernautXL", { type := "unified" }),
  ("chroma", { type := "unified" }),
  ("z-image-turbo",
    { type := "native", url_template := "https://chutes-\x7bmodel\x7d.chutes.ai/generate",
      supports_negative := some false, resolution_format := some "none" }),
  ("hunyuan-image-3",
    { type := "native", url_template := "https://chutes-\x7bmodel\x7d.chutes.ai/generate",
      supports_negative := some false, resolution_format := some "none" }),
  ("hidream",
    { type := "native", url_template := "https://chutes-\x7bmodel\x7d.chutes.ai/generate",
      supports_negative := some false, resolution_format := some "string" })]

structure Config where
  api_key : String
  model_name : String
  custom_models : List (String × ModelInfo)
deriving DecidableEq, Repr

/-- `get_model_info` (lines 95-113): exact match in `KNOWN_MODELS`, then
case-insensitive match there, then exact match in `custom_models`. -/
def get_model_info (model_name : String) (config : Config) : Option ModelInfo :=
  if model_name = "" then none
  else
    match KNOWN_MODELS.find? (fun kv => kv.1 == model_name) with
    | some kv => some kv.2
    | none =>
      match KNOWN_MODELS.find? (fun kv => kv.1.toLower == model_name.toLower) with
      | some kv => some kv.2
      | none =>
        match config.custom_models.find? (fun kv => kv.1 == model_name) with
        | some kv => some kv.2
        | none => none

/-- Bool test that `p` is an initial segment of `l`. -/
def startsWithChars : List Char → List Char → Bool
  | [], _ => true
  | _ :: _, [] => false
  | a :: as, b :: bs => a == b && startsWithChars as bs

def pySubstringAux (needle : List Char) : List Char → Bool
  | [] => needle.isEmpty
  | a :: rest => startsWithChars needle (a :: rest) || pySubstringAux needle rest

/-- Python substring containment `needle in hay`. -/
def pySubstring (needle hay : String) : Bool :=
  pySubstringAux needle.data hay.data

/-- `parse_curl_request` (lines 115-153): infer a profile from a pasted
example request.  The regex search of lines 132-137, which only extracts the
native URL template, is modelled by the explicit `reMatch` argument holding
its result; the `model_name` argument is unused in the source as well.
Lines 149-151 overwrite the inferred fields for unified profiles. -/
def parse_curl_request (_model_name curl_text : String) (reMatch : Option String) :
    ModelInfo :=
  let ty := if pySubstring "image.chutes.ai/generate" curl_text then "unified"
            else if pySubstring ".chutes.ai/generate" curl_text then "native"
            else "unknown"
  let url := if ty = "native" then
               match reMatch with
               | some u => u
               | none => ""
             else ""
  let sn := pySubstring "negative_prompt" curl_text
  let rf := if pySubstring "resolution" curl_text ∧ pySubstring "x" curl_text then
              "string"
            else if pySubstring "width" curl_text ∧ pySubstring "height" curl_text then
              "standard"
            else "none"
  if ty = "unified" then
    { type := ty, url_template := url, supports_negative := some true,
      resolution_format := some "standard" }
  else
    { type := ty, url_template := url, supports_negative := some sn,
      resolution_format := some rf }

/-! ### Upstream request construction (source lines 352-420)

The payload dict of lines 376-403 has a fixed set of possible keys, modelled
as a structure with `Option` fields for the conditional ones.  The literal
`guidance_scale = 7.5` is kept in tenths to stay in exact arithmetic. -/

structure Payload where
  prompt : String
  model : Option String
  negative_prompt : Option String
  width : Option Nat
  height : Option Nat
  resolution : Option String
  num_inference_steps : Nat
  guidance_scale_tenths : Nat
deriving DecidableEq, Repr

/-- URL selection of lines 366-374. -/
def chutesUrl (model_name : String) (info : ModelInfo) : String :=
  if info.type = "unified" then "https://image.chutes.ai/generate"
  else if (info.url_template.splitOn "\x7bmodel\x7d").length > 1 then
    info.url_template.replace "\x7bmodel\x7d" model_name
  else info.url_template

/-- Payload construction of lines 376-403. -/
def buildPayload (model_name : String) (info : ModelInfo)
    (prompt negative_prompt : String) (width height : Nat) : Payload :=
  let model := if info.type = "unified" then some model_name else none
  let supports_neg :=
    if info.type = "unified" then info.supports_negative.getD true
    else info.supports_negative.getD false
  let neg := if supports_neg ∧ negative_prompt ≠ "" then some negative_prompt else none
  let res_format := info.resolution_format.getD "standard"
  let w := if res_format = "standard" then some width else none
  let h := if res_format = "standard" then some height else none
  let r := if res_format = "string" then some (pyIntRepr width ++ "x" ++ pyIntRepr height)
           else none
  ⟨prompt, model, neg, w, h, r, 20, 75⟩

/-- What the upstream HTTP call returns: status code, `response.text` and
`response.content`. -/
structure UpstreamResponse where
  status : Nat
  text : String
  content : List Nat
deriving DecidableEq, Repr

/-- Python `s[:200]`. -/
def take200 (s : String) : String :=
  ⟨s.data.take 200⟩

/-- `request_chutes_image` (lines 352-420).  The network is an oracle `net`
mapping the URL and payload that would be posted to the upstream response;
raised exceptions are `Except.error` with the exception's message
(lines 364 and 407-420). -/
def request_chutes_image (prompt negative_prompt : String) (width height : Nat)
    (config : Config) (net : String → Payload → UpstreamResponse) :
    Except String (List Nat) :=
  match get_model_info config.model_name config with
  | none => Except.error ("Нет метаданных для модели " ++ config.model_name)
  | some info =>
    let url := chutesUrl config.model_name info
    let payload := buildPayload config.model_name info prompt negative_prompt width height
    let resp := net url payload
    if resp.status = 200 then Except.ok resp.content
    else if resp.status = 400 then
      Except.error ("Ошибка 400 (Bad Request): " ++ take200 resp.text)
    else if resp.status = 401 then Except.error "Неверный API ключ (401)."
    else if resp.status = 404 then Except.error "Модель/URL не найден (404)."
    else if resp.status = 429 then Except.error "Достигнут дневной лимит (429)."
    else if resp.status = 500 then Except.error "Ошибка сервера Chutes (500)."
    else Except.error ("HTTP " ++ pyIntRepr resp.status ++ ": " ++ take200 resp.text)

/-! ### The gateway handler (source lines 428-483)

The on-disk cache directory is modelled as an association list from cache
file names to stored bytes; `check_cache` is the existence lookup
(lines 337-339) and `save_to_cache` the write (lines 341-345, newest entry
shadows older ones, i.e. the file is overwritten). -/

def Cache := List (String × List Nat)

def check_cache (cache : Cache) (cache_filename : String) : Option (List Nat) :=
  (List.find? (fun kv => kv.1 == cache_filename) cache).map (fun kv => kv.2)

def save_to_cache (cache : Cache) (cache_filename : String) (image_data : List Nat) : Cache :=
  (cache_filename, image_data) :: cache

inductive Body where
  | bytes (b : List Nat)
  | text (t : String)
deriving DecidableEq, Repr

structure HttpResponse where
  status : Nat
  mimetype : String
  body : Body
deriving DecidableEq, Repr

/-- The request handler `generate_image` (lines 428-483).  Returns the HTTP
response, the cache after the request, and whether `request_chutes_image`
was invoked.  On a cache hit the stored bytes are served (line 471); on a
miss the upstream result is cached and served (lines 476-480); any raised
exception becomes a plain-text 500 response (lines 481-483). -/
def generate_image (config : Config) (net : String → Payload → UpstreamResponse)
    (cache : Cache) (params : String) : HttpResponse × Cache × Bool :=
  let req := parseParams params
  let cache_file := get_cache_key req.prompt req.negative_prompt req.width req.height
  match check_cache cache cache_file with
  | some data => (⟨200, "image/jpeg", Body.bytes data⟩, cache, false)
  | none =>
    match request_chutes_image req.prompt req.negative_prompt req.width req.height config net with
    | Except.ok image_data =>
      (⟨200, "image/jpeg", Body.bytes image_data⟩, save_to_cache cache cache_file image_data, true)
    | Except.error e =>
      (⟨500, "text/plain; charset=utf-8", Body.text e⟩, cache, true)

/-! ### Character-level facts -/

theorem digit_le (c : Char) (hd : c.isDigit = true) : 48 ≤ c.val ∧ c.val ≤ 57 := by
  simpa [Char.isDigit] using hd

theorem digit_ne_x (c : Char) (hd : c.isDigit = true) : c ≠ 'x' := by
  rintro rfl; exact absurd (digit_le _ hd).2 (by decide)

theorem digit_ne_X (c : Char) (hd : c.isDigit = true) : c ≠ 'X' := by
  rintro rfl; exact absurd (digit_le _ hd).2 (by decide)

theorem digit_ne_pipe (c : Char) (hd : c.isDigit = true) : c ≠ '|' := by
  rintro rfl; exact absurd (digit_le _ hd).2 (by decide)

theorem digit_toNat_le (c : Char) (hd : c.isDigit = true) :
    48 ≤ c.toNat ∧ c.toNat ≤ 57 :=
  ⟨UInt32.le_toNat_of_le (by decide) (digit_le _ hd).1,
   UInt32.toNat_le_of_le (by decide) (digit_le _ hd).2⟩

theorem digit_not_space (c : Char) (hd : c.isDigit = true) : pyIsSpace c = false := by
  have h := digit_toNat_le c hd
  simp [pyIsSpace, pySpaceCodes, List.contains]
  omega

theorem pyDigitVal_ascii (c : Char) (hd : c.isDigit = true) :
    pyDigitVal? c = some (c.toNat - 48) := by
  have h := digit_toNat_le c hd
  unfold pyDigitVal? pyDecimalBases
  rw [List.find?_cons_of_pos _ (by simp; omega)]
  rfl

theorem digit_pyDigitChar (c : Char) (hd : c.isDigit = true) :
    pyIsDigitChar c = true := by
  simp [pyIsDigitChar, pyDigitVal_ascii c hd]

theorem digit_toLower (c : Char) (hd : c.isDigit = true) : c.toLower = c := by
  have h2 : c.val.toNat ≤ 57 := UInt32.toNat_le_of_le (by decide) (digit_le _ hd).2
  rw [Char.toLower, if_neg]
  intro hcond
  have : (65 : Nat) ≤ c.val.toNat := hcond.1
  omega

/-! ### List helper lemmas for the parser -/

theorem dropWhile_eq_self_of (p : Char → Bool) (l : List Char)
    (h : ∀ c ∈ l, p c = false) : l.dropWhile p = l := by
  cases l with
  | nil => rfl
  | cons a t => simp [List.dropWhile_cons, h a (by simp)]

theorem stripChars_eq_self (l : List Char)
    (h : ∀ c ∈ l, pyIsSpace c = false) : stripChars l = l := by
  unfold stripChars
  rw [dropWhile_eq_self_of _ _ h,
    dropWhile_eq_self_of _ _ (by intro c hc; exact h c (List.mem_reverse.mp hc)),
    List.reverse_reverse]

theorem splitOnChar_ne_nil (c : Char) (l : List Char) : splitOnChar c l ≠ [] := by
  cases l with
  | nil => simp [splitOnChar]
  | cons a t =>
    simp only [splitOnChar]
    rcases h : splitOnChar c t with _ | ⟨s, ss⟩ <;> simp
    split <;> simp

theorem splitOnChar_not_mem (c : Char) (l : List Char) (h : c ∉ l) :
    splitOnChar c l = [l] := by
  induction l with
  | nil => rfl
  | cons a t ih =>
    have ht : c ∉ t := fun hm => h (List.mem_cons_of_mem _ hm)
    have ha : ¬(a = c) := fun he => h (he ▸ List.mem_cons_self _ _)
    simp only [splitOnChar, ih ht, if_neg ha]

theorem splitOnChar_append (c : Char) (a t : List Char) (h : c ∉ a) :
    splitOnChar c (a ++ c :: t) = a :: splitOnChar c t := by
  induction a with
  | nil =>
    rcases he : splitOnChar c t with _ | ⟨s, ss⟩
    · exact absurd he (splitOnChar_ne_nil c t)
    · simp [splitOnChar, he]
  | cons d a' ih =>
    have ha' : c ∉ a' := fun hm => h (List.mem_cons_of_mem _ hm)
    have hd : ¬(d = c) := fun hdc => h (hdc ▸ List.mem_cons_self _ _)
    simp only [List.cons_append, splitOnChar]
    rw [List.append_eq, ih ha']
    simp [if_neg hd]

/-! ### Decimal helper lemmas -/

theorem digitChar_isDigit (n : Nat) (h : n < 10) : (digitChar n).isDigit = true := by
  interval_cases n <;> decide

theorem digitChar_toNat (n : Nat) (h : n < 10) : (digitChar n).toNat - 48 = n := by
  interval_cases n <;> decide

theorem digitsVal_append (xs : List Char) (d : Char) :
    digitsVal (xs ++ [d]) = 10 * digitsVal xs + (d.toNat - 48) := by
  simp [digitsVal, List.foldl_append]

theorem natDecimalAux_digits (fuel : Nat) :
    ∀ n, n < fuel → ∀ c ∈ natDecimalAux fuel n, c.isDigit = true := by
  induction fuel with
  | zero => intro n hn; omega
  | succ fuel ih =>
    intro n hn c hc
    rw [natDecimalAux] at hc
    by_cases h10 : n < 10
    · rw [if_pos h10] at hc
      simp at hc
      subst hc
      exact digitChar_isDigit n h10
    · rw [if_neg h10] at hc
      rcases List.mem_append.mp hc with h | h
      · exact ih (n / 10) (by omega) c h
      · simp at h
        subst h
        exact digitChar_isDigit (n % 10) (Nat.mod_lt _ (by omega))

theorem natDecimalAux_val (fuel : Nat) :
    ∀ n, n < fuel → digitsVal (natDecimalAux fuel n) = n := by
  induction fuel with
  | zero => intro n hn; omega
  | succ fuel ih =>
    intro n hn
    rw [natDecimalAux]
    by_cases h10 : n < 10
    · rw [if_pos h10]
      have := digitChar_toNat n h10
      simp [digitsVal]
      omega
    · rw [if_neg h10]
      rw [digitsVal_append, ih (n / 10) (by omega), digitChar_toNat (n % 10) (by omega)]
      omega

theorem natDecimal_digits (n : Nat) : ∀ c ∈ natDecimal n, c.isDigit = true :=
  natDecimalAux_digits (n + 1) n (Nat.lt_succ_self n)

theorem natDecimal_val (n : Nat) : digitsVal (natDecimal n) = n :=
  natDecimalAux_val (n + 1) n (Nat.lt_succ_self n)

theorem natDecimal_inj (a b : Nat) (h : natDecimal a = natDecimal b) : a = b := by
  have := natDecimal_val a
  rw [h, natDecimal_val] at this
  omega

theorem natDecimal_no_pipe (n : Nat) : '|' ∉ natDecimal n := by
  intro hm
  exact digit_ne_pipe '|' (natDecimal_digits n '|' hm) rfl

/-- Unambiguity of a two-character separator on texts that avoid the
separator character: splitting off the first `'|' :: '|'`-delimited field
is deterministic. -/
theorem sep_peel (a : List Char) :
    ∀ b x y : List Char, '|' ∉ a → '|' ∉ b →
      a ++ '|' :: '|' :: x = b ++ '|' :: '|' :: y → a = b ∧ x = y := by
  induction a with
  | nil =>
    intro b x y _ hb h
    cases b with
    | nil => simpa using h
    | cons d b' =>
      simp only [List.nil_append, List.cons_append, List.cons.injEq] at h
      exact absurd (h.1 ▸ List.mem_cons_self _ _) hb
  | cons e a' ih =>
    intro b x y ha hb h
    cases b with
    | nil =>
      simp only [List.nil_append, List.cons_append, List.cons.injEq] at h
      exact absurd (h.1.symm ▸ List.mem_cons_self _ _) ha
    | cons d b' =>
      simp only [List.cons_append, List.cons.injEq] at h
      have ha' : '|' ∉ a' := fun hm => ha (List.mem_cons_of_mem _ hm)
      have hb' : '|' ∉ b' := fun hm => hb (List.mem_cons_of_mem _ hm)
      obtain ⟨h1, h2⟩ := ih b' x y ha' hb' h.2
      exact ⟨by rw [h.1, h1], h2⟩

/-! ### Behaviour of `processPart` on the segment shapes of interest -/

theorem filter_ne_x_digits (l : List Char) (h : ∀ c ∈ l, c.isDigit = true) :
    l.filter (fun c => c != 'x') = l := by
  induction l with
  | nil => rfl
  | cons a t ih =>
    rw [List.filter_cons, if_pos (by simp [bne_iff_ne]; exact digit_ne_x a (h a (by simp))),
      ih (fun c hc => h c (by simp [hc]))]

theorem map_toLower_digits (l : List Char) (h : ∀ c ∈ l, c.isDigit = true) :
    l.map Char.toLower = l := by
  induction l with
  | nil => rfl
  | cons a t ih =>
    rw [List.map_cons, digit_toLower a (h a (by simp)), ih (fun c hc => h c (by simp [hc]))]

theorem pyIntVal_eq_digitsVal (l : List Char) (hd : ∀ c ∈ l, c.isDigit = true) :
    pyIntVal l = digitsVal l := by
  unfold pyIntVal digitsVal
  suffices h : ∀ acc : Nat,
      l.foldl (fun a c => 10 * a + (pyDigitVal? c).getD 0) acc =
      l.foldl (fun a c => 10 * a + (c.toNat - 48)) acc from h 0
  induction l with
  | nil => intro acc; rfl
  | cons a t ih =>
    intro acc
    simp only [List.foldl_cons, pyDigitVal_ascii a (hd a (by simp)), Option.getD_some]
    exact ih (fun c hc => hd c (by simp [hc])) _

theorem pyInt_digits (l : List Char) (hne : l ≠ []) (hd : ∀ c ∈ l, c.isDigit = true) :
    pyInt l = some (digitsVal l) := by
  unfold pyInt
  rw [if_pos ⟨hne, List.all_eq_true.mpr fun c hc => by
        simp [pyDigitVal_ascii c (hd c hc)]⟩,
    pyIntVal_eq_digitsVal l hd]

theorem negCheck_wh (st : ParseState) (p : List Char) :
    (negCheck st p).width = st.width ∧ (negCheck st p).height = st.height := by
  unfold negCheck
  split <;> exact ⟨rfl, rfl⟩

theorem negCheck_of_ne (st : ParseState) (p : List Char)
    (h : st.negative_prompt ≠ "") : negCheck st p = st := by
  unfold negCheck
  rw [if_neg h]

/-- Every branch of `processPart` returns the state unchanged, a pure
resolution update, or a negative-prompt check over a width-only update. -/
theorem processPart_cases (st : ParseState) (p : List Char) :
    processPart st p = st ∨
    (∃ wn hn, processPart st p = { st with width := wn, height := hn }) ∨
    (∃ wn, processPart st p = negCheck { st with width := wn } (stripChars p)) ∨
    processPart st p = negCheck st (stripChars p) := by
  simp only [processPart]
  split
  · exact Or.inl rfl
  · split
    · split
      · split
        · split
          · exact Or.inr (Or.inl ⟨_, _, rfl⟩)
          · exact Or.inr (Or.inr (Or.inl ⟨_, rfl⟩))
        · exact Or.inr (Or.inr (Or.inr rfl))
      all_goals exact Or.inr (Or.inr (Or.inr rfl))
    · exact Or.inr (Or.inr (Or.inr rfl))

/-- A nonempty negative prompt is never overwritten (line 460's guard). -/
theorem processPart_neg_preserved (st : ParseState) (p : List Char)
    (hne : st.negative_prompt ≠ "") :
    (processPart st p).negative_prompt = st.negative_prompt := by
  rcases processPart_cases st p with h | ⟨wn, hn, h⟩ | ⟨wn, h⟩ | h <;> rw [h]
  · rw [negCheck_of_ne _ _ (by simpa using hne)]
  · rw [negCheck_of_ne _ _ hne]

/-- A segment whose stripped text fails the resolution guard never touches
width or height. -/
theorem processPart_wh_of_guard_false (st : ParseState) (part : List Char)
    (hg : resGuard (stripChars part) = false) :
    (processPart st part).width = st.width ∧ (processPart st part).height = st.height := by
  simp only [processPart]
  split
  · exact ⟨rfl, rfl⟩
  · rw [hg]
    simp only [Bool.false_eq_true, if_false]
    exact negCheck_wh st (stripChars part)

theorem foldl_wh_of_guard_false (parts : List (List Char)) :
    ∀ st : ParseState, (∀ p ∈ parts, resGuard (stripChars p) = false) →
      (parts.foldl processPart st).width = st.width ∧
      (parts.foldl processPart st).height = st.height := by
  induction parts with
  | nil => exact fun st _ => ⟨rfl, rfl⟩
  | cons p t ih =>
    intro st hall
    have h1 := processPart_wh_of_guard_false st p (hall p (by simp))
    have h2 := ih (processPart st p) (fun q hq => hall q (by simp [hq]))
    exact ⟨h2.1.trans h1.1, h2.2.trans h1.2⟩

theorem foldl_neg_preserved (parts : List (List Char)) :
    ∀ st : ParseState, st.negative_prompt ≠ "" →
      (parts.foldl processPart st).negative_prompt = st.negative_prompt := by
  induction parts with
  | nil => exact fun st _ => rfl
  | cons p t ih =>
    intro st hne
    have h1 := processPart_neg_preserved st p hne
    rw [List.foldl_cons, ih (processPart st p) (by rw [h1]; exact hne), h1]

/-- A well-formed lowercase resolution segment `<digits>x<digits>` sets both
dimensions and leaves the rest of the state alone (lines 449-454). -/
theorem processPart_res (st : ParseState) (w h : List Char)
    (hw : w ≠ []) (hh : h ≠ [])
    (hwd : ∀ c ∈ w, c.isDigit = true) (hhd : ∀ c ∈ h, c.isDigit = true) :
    processPart st (w ++ 'x' :: h) =
      { st with width := digitsVal w, height := digitsVal h } := by
  have hxw : 'x' ∉ w := fun hm => digit_ne_x 'x' (hwd _ hm) rfl
  have hxh : 'x' ∉ h := fun hm => digit_ne_x 'x' (hhd _ hm) rfl
  have hmem : ('x' : Char) ∈ w ++ 'x' :: h :=
    List.mem_append_right _ (List.mem_cons_self _ _)
  have hstrip : stripChars (w ++ 'x' :: h) = w ++ 'x' :: h := by
    apply stripChars_eq_self
    intro c hc
    rcases List.mem_append.mp hc with hcw | hch
    · exact digit_not_space c (hwd c hcw)
    · rcases List.mem_cons.mp hch with rfl | hch'
      · decide
      · exact digit_not_space c (hhd c hch')
  have hskip : ¬(w ++ 'x' :: h = [] ∨ w ++ 'x' :: h = ['-']) := by
    rintro (he | he) <;> rw [he] at hmem <;> simp at hmem
  have hfil : (w ++ 'x' :: h).filter (fun c => c != 'x') = w ++ h := by
    rw [List.filter_append, filter_ne_x_digits w hwd, List.filter_cons,
      if_neg (by simp), filter_ne_x_digits h hhd]
  have hguard : resGuard (w ++ 'x' :: h) = true := by
    unfold resGuard
    rw [hfil]
    refine (Bool.and_eq_true _ _).mpr ⟨(Bool.and_eq_true _ _).mpr ⟨?_, ?_⟩, ?_⟩
    · exact List.any_eq_true.mpr ⟨'x', hmem, by simp⟩
    · simp [hw]
    · exact List.all_eq_true.mpr fun c hc =>
        digit_pyDigitChar c ((List.mem_append.mp hc).elim (hwd c) (hhd c))
  have hmap : (w ++ 'x' :: h).map Char.toLower = w ++ 'x' :: h := by
    rw [List.map_append, map_toLower_digits w hwd, List.map_cons,
      map_toLower_digits h hhd]
    rfl
  simp only [processPart]
  rw [hstrip, if_neg hskip, hguard, hmap,
    splitOnChar_append 'x' w h hxw, splitOnChar_not_mem 'x' h hxh]
  simp [pyInt_digits w hw hwd, pyInt_digits h hh hhd]

/-- A segment `<digits>x` passes the guard, splits into two pieces with an
empty second piece, and Python's sequential assignments then update the
width before `int('')` raises: the stripped segment falls through to the
negative-prompt check with the width already overwritten. -/
theorem processPart_width_only (st : ParseState) (w : List Char)
    (hw : w ≠ []) (hwd : ∀ c ∈ w, c.isDigit = true) :
    processPart st (w ++ ['x']) =
      negCheck { st with width := digitsVal w } (w ++ ['x']) := by
  have hxw : 'x' ∉ w := fun hm => digit_ne_x 'x' (hwd _ hm) rfl
  have hmem : ('x' : Char) ∈ w ++ ['x'] :=
    List.mem_append_right _ (List.mem_cons_self _ _)
  have hstrip : stripChars (w ++ ['x']) = w ++ ['x'] := by
    apply stripChars_eq_self
    intro c hc
    rcases List.mem_append.mp hc with hcw | hch
    · exact digit_not_space c (hwd c hcw)
    · simp at hch; subst hch; decide
  have hskip : ¬(w ++ ['x'] = [] ∨ w ++ ['x'] = ['-']) := by
    rintro (he | he) <;> rw [he] at hmem <;> simp at hmem
  have hfil : (w ++ ['x']).filter (fun c => c != 'x') = w := by
    rw [List.filter_append, filter_ne_x_digits w hwd, List.filter_cons,
      if_neg (by simp)]
    simp
  have hguard : resGuard (w ++ ['x']) = true := by
    unfold resGuard
    rw [hfil]
    refine (Bool.and_eq_true _ _).mpr ⟨(Bool.and_eq_true _ _).mpr ⟨?_, ?_⟩, ?_⟩
    · exact List.any_eq_true.mpr ⟨'x', hmem, by simp⟩
    · simp [hw]
    · exact List.all_eq_true.mpr fun c hc => digit_pyDigitChar c (hwd c hc)
  have hmap : (w ++ ['x']).map Char.toLower = w ++ ['x'] := by
    rw [List.map_append, map_toLower_digits w hwd]
    rfl
  simp only [processPart]
  rw [hstrip, if_neg hskip, hguard, hmap,
    splitOnChar_append 'x' w [] hxw]
  simp only [splitOnChar, pyInt_digits w hw hwd]
  simp [pyInt]

/-- A segment `x<digits>` passes the guard but the first split piece is
empty, `int('')` raises before any assignment, and the state is unchanged up
to the negative-prompt check. -/
theorem processPart_lead_x (st : ParseState) (h : List Char)
    (hh : h ≠ []) (hhd : ∀ c ∈ h, c.isDigit = true) :
    processPart st ('x' :: h) = negCheck st ('x' :: h) := by
  have hxh : 'x' ∉ h := fun hm => digit_ne_x 'x' (hhd _ hm) rfl
  have hstrip : stripChars ('x' :: h) = 'x' :: h := by
    apply stripChars_eq_self
    intro c hc
    rcases List.mem_cons.mp hc with rfl | hch'
    · decide
    · exact digit_not_space c (hhd c hch')
  have hskip : ¬('x' :: h = [] ∨ 'x' :: h = ['-']) := by
    rintro (he | he)
    · exact absurd he (by simp)
    · rw [List.cons.injEq] at he; exact absurd he.1 (by decide)
  have hfil : ('x' :: h).filter (fun c => c != 'x') = h := by
    rw [List.filter_cons, if_neg (by simp), filter_ne_x_digits h hhd]
  have hguard : resGuard ('x' :: h) = true := by
    unfold resGuard
    rw [hfil]
    refine (Bool.and_eq_true _ _).mpr ⟨(Bool.and_eq_true _ _).mpr ⟨?_, ?_⟩, ?_⟩
    · exact List.any_eq_true.mpr ⟨'x', List.mem_cons_self _ _, by simp⟩
    · simp [hh]
    · exact List.all_eq_true.mpr fun c hc => digit_pyDigitChar c (hhd c hc)
  have hmap : ('x' :: h).map Char.toLower = 'x' :: h := by
    rw [List.map_cons, map_toLower_digits h hhd]
    rfl
  have hsplit : splitOnChar 'x' ('x' :: h) = [] :: splitOnChar 'x' h := by
    simpa using splitOnChar_append 'x' [] h (by simp)
  simp only [processPart]
  rw [hstrip, if_neg hskip, hguard, hmap, hsplit, splitOnChar_not_mem 'x' h hxh]
  simp [pyInt]

/-- A segment with two `x` separators (e.g. `5x5x5`) passes the guard but
splits into three pieces, the tuple unpacking raises before any assignment,
and the state is unchanged up to the negative-prompt check. -/
theorem processPart_two_x (st : ParseState) (a b c : List Char)
    (hna : a ≠ [])
    (hda : ∀ d ∈ a, d.isDigit = true) (hdb : ∀ d ∈ b, d.isDigit = true)
    (hdc : ∀ d ∈ c, d.isDigit = true) :
    processPart st (a ++ 'x' :: (b ++ 'x' :: c)) =
      negCheck st (a ++ 'x' :: (b ++ 'x' :: c)) := by
  have hxa : 'x' ∉ a := fun hm => digit_ne_x 'x' (hda _ hm) rfl
  have hxb : 'x' ∉ b := fun hm => digit_ne_x 'x' (hdb _ hm) rfl
  have hxc : 'x' ∉ c := fun hm => digit_ne_x 'x' (hdc _ hm) rfl
  have hmem : ('x' : Char) ∈ a ++ 'x' :: (b ++ 'x' :: c) :=
    List.mem_append_right _ (List.mem_cons_self _ _)
  have hstrip : stripChars (a ++ 'x' :: (b ++ 'x' :: c)) = a ++ 'x' :: (b ++ 'x' :: c) := by
    apply stripChars_eq_self
    intro d hd
    rcases List.mem_append.mp hd with h1 | h1
    · exact digit_not_space d (hda d h1)
    · rcases List.mem_cons.mp h1 with rfl | h2
      · decide
      · rcases List.mem_append.mp h2 with h3 | h3
        · exact digit_not_space d (hdb d h3)
        · rcases List.mem_cons.mp h3 with rfl | h4
          · decide
          · exact digit_not_space d (hdc d h4)
  have hskip : ¬(a ++ 'x' :: (b ++ 'x' :: c) = [] ∨ a ++ 'x' :: (b ++ 'x' :: c) = ['-']) := by
    rintro (he | he) <;> rw [he] at hmem <;> simp at hmem
  have hfil : (a ++ 'x' :: (b ++ 'x' :: c)).filter (fun d => d != 'x') = a ++ (b ++ c) := by
    rw [List.filter_append, filter_ne_x_digits a hda, List.filter_cons, if_neg (by simp),
      List.filter_append, filter_ne_x_digits b hdb, List.filter_cons, if_neg (by simp),
      filter_ne_x_digits c hdc]
  have hguard : resGuard (a ++ 'x' :: (b ++ 'x' :: c)) = true := by
    unfold resGuard
    rw [hfil]
    refine (Bool.and_eq_true _ _).mpr ⟨(Bool.and_eq_true _ _).mpr ⟨?_, ?_⟩, ?_⟩
    · exact List.any_eq_true.mpr ⟨'x', hmem, by simp⟩
    · simp [hna]
    · refine List.all_eq_true.mpr fun d hd => digit_pyDigitChar d ?_
      rcases List.mem_append.mp hd with h1 | h1
      · exact hda d h1
      · rcases List.mem_append.mp h1 with h2 | h2
        · exact hdb d h2
        · exact hdc d h2
  have hmap : (a ++ 'x' :: (b ++ 'x' :: c)).map Char.toLower = a ++ 'x' :: (b ++ 'x' :: c) := by
    rw [List.map_append, map_toLower_digits a hda, List.map_cons, List.map_append,
      map_toLower_digits b hdb, List.map_cons, map_toLower_digits c hdc]
    rfl
  simp only [processPart]
  rw [hstrip, if_neg hskip, hguard, hmap,
    splitOnChar_append 'x' a (b ++ 'x' :: c) hxa,
    splitOnChar_append 'x' b c hxb, splitOnChar_not_mem 'x' c hxc]
  simp

/-- An uppercase `X` segment `<digits>X<digits>` fails the guard of line 449
(the membership test `'x' in part` is case-sensitive) and is treated as a
negative-prompt candidate instead. -/
theorem processPart_upper (st : ParseState) (w h : List Char)
    (hwd : ∀ c ∈ w, c.isDigit = true) (hhd : ∀ c ∈ h, c.isDigit = true) :
    processPart st (w ++ 'X' :: h) = negCheck st (w ++ 'X' :: h) := by
  have hmem : ('X' : Char) ∈ w ++ 'X' :: h :=
    List.mem_append_right _ (List.mem_cons_self _ _)
  have hstrip : stripChars (w ++ 'X' :: h) = w ++ 'X' :: h := by
    apply stripChars_eq_self
    intro c hc
    rcases List.mem_append.mp hc with hcw | hch
    · exact digit_not_space c (hwd c hcw)
    · rcases List.mem_cons.mp hch with rfl | hch'
      · decide
      · exact digit_not_space c (hhd c hch')
  have hskip : ¬(w ++ 'X' :: h = [] ∨ w ++ 'X' :: h = ['-']) := by
    rintro (he | he) <;> rw [he] at hmem <;> simp at hmem
  have hguard : resGuard (w ++ 'X' :: h) = false := by
    unfold resGuard
    have : (w ++ 'X' :: h).any (fun c => c == 'x') = false := by
      refine List.any_eq_false.mpr fun c hc => ?_
      rcases List.mem_append.mp hc with hcw | hch
      · simp [digit_ne_x c (hwd c hcw)]
      · rcases List.mem_cons.mp hch with rfl | hch'
        · decide
        · simp [digit_ne_x c (hhd c hch')]
    rw [this]
    rfl
  simp only [processPart]
  rw [hstrip, if_neg hskip, hguard]
  simp

/-! ### Claim theorems -/

theorem pipes_data : ("||" : String).data = ['|', '|'] := rfl

theorem pyIntRepr_data (n : Nat) : (pyIntRepr n).data = natDecimal n := rfl

/-- C2: `get_cache_key` is a pure function of exactly
(prompt, negative_prompt, width, height): requests that agree on the four
fields receive the same cache key, independently of any model or provider
state (neither is an input of the function). -/
theorem get_cache_key_pure (p1 n1 : String) (w1 h1 : Nat) (p2 n2 : String) (w2 h2 : Nat)
    (hp : p1 = p2) (hn : n1 = n2) (hw : w1 = w2) (hh : h1 = h2) :
    get_cache_key p1 n1 w1 h1 = get_cache_key p2 n2 w2 h2 := by
  subst hp hn hw hh
  rfl

theorem get_cache_key_pure_witness :
    get_cache_key "cat" "blurry" 512 768 = get_cache_key "cat" "blurry" 512 768 :=
  get_cache_key_pure "cat" "blurry" 512 768 "cat" "blurry" 512 768 rfl rfl rfl rfl

/-- C3 counterexample: the pre-digest encoding of line 333 is not injective,
because the separator `||` can occur in the free-text fields.  The distinct
requests `("a||b", "c")` and `("a", "b||c")` (same 1024×1024 resolution)
produce the same `cache_string`, hence the same MD5 digest and the same
cache key: an actual full-key collision. -/
theorem get_cache_key_collision :
    (("a||b" : String), ("c" : String)) ≠ (("a" : String), ("b||c" : String)) ∧
    cacheString "a||b" "c" 1024 1024 = cacheString "a" "b||c" 1024 1024 ∧
    get_cache_key "a||b" "c" 1024 1024 = get_cache_key "a" "b||c" 1024 1024 := by
  have hcs : cacheString "a||b" "c" 1024 1024 = cacheString "a" "b||c" 1024 1024 := by decide
  refine ⟨by decide, hcs, ?_⟩
  unfold get_cache_key
  rw [hcs]

/-- C3 (amended): the pre-digest encoding is injective on requests whose
prompt and negative prompt avoid the separator character `|` (width and
height are decimal renderings and never contain `|`); requests whose text
fields contain `||` can collide, as `get_cache_key_collision` shows. -/
theorem cacheString_inj_no_pipe (p1 n1 : String) (w1 h1 : Nat)
    (p2 n2 : String) (w2 h2 : Nat)
    (hp1 : '|' ∉ p1.data) (hn1 : '|' ∉ n1.data)
    (hp2 : '|' ∉ p2.data) (hn2 : '|' ∉ n2.data)
    (h : cacheString p1 n1 w1 h1 = cacheString p2 n2 w2 h2) :
    p1 = p2 ∧ n1 = n2 ∧ w1 = w2 ∧ h1 = h2 := by
  have hd : p1.data ++ '|' :: '|' ::
        (n1.data ++ '|' :: '|' :: (natDecimal w1 ++ '|' :: '|' :: natDecimal h1)) =
      p2.data ++ '|' :: '|' ::
        (n2.data ++ '|' :: '|' :: (natDecimal w2 ++ '|' :: '|' :: natDecimal h2)) := by
    have h2 := congrArg String.data h
    simpa [cacheString, String.data_append, pipes_data, pyIntRepr_data,
      List.append_assoc] using h2
  obtain ⟨e1, r1⟩ := sep_peel _ _ _ _ hp1 hp2 hd
  obtain ⟨e2, r2⟩ := sep_peel _ _ _ _ hn1 hn2 r1
  obtain ⟨e3, e4⟩ := sep_peel _ _ _ _ (natDecimal_no_pipe w1) (natDecimal_no_pipe w2) r2
  exact ⟨String.ext e1, String.ext e2, natDecimal_inj _ _ e3, natDecimal_inj _ _ e4⟩

theorem cacheString_inj_no_pipe_witness :
    ("a" : String) = "a" ∧ ("b" : String) = "b" ∧ 7 = 7 ∧ 9 = 9 :=
  cacheString_inj_no_pipe "a" "b" 7 9 "a" "b" 7 9
    (by decide) (by decide) (by decide) (by decide) rfl

/-- C4 counterexample: parsed width and height need not be positive.  The
path `cat/0x0` passes the resolution guard and `int("0") = 0` is assigned,
so the parsed request carries width = height = 0. -/
theorem parse_zero_resolution :
    parseParams "cat/0x0" = ⟨"cat", "", 0, 0⟩ ∧
    ¬(0 < (parseParams "cat/0x0").width) := by
  constructor <;> decide

/-- C4 (amended): parsed width and height are nonnegative integers (zero is
reachable, e.g. via a `0x0` segment) and they stay at the default 1024 each
whenever no segment of the path passes the resolution guard of line 449. -/
theorem default_resolution (params : String)
    (hall : ∀ part ∈ (splitOnChar '/' params.data).drop 1,
      resGuard (stripChars part) = false) :
    (parseParams params).width = 1024 ∧ (parseParams params).height = 1024 := by
  have h := foldl_wh_of_guard_false ((splitOnChar '/' params.data).drop 1)
    ⟨"", 1024, 1024⟩ hall
  simpa [parseParams] using h

theorem default_resolution_witness :
    (parseParams "cat/blurry").width = 1024 ∧ (parseParams "cat/blurry").height = 1024 :=
  default_resolution "cat/blurry" (by decide)

/-- C5 counterexample: the resolution guard is case-sensitive (`'x' in part`
looks for a lowercase `x` only), so `cat/512X768` keeps the default
1024×1024 and the segment `512X768` becomes the negative prompt. -/
theorem upperX_segment_not_resolution :
    (parseParams "cat/512X768").width = 1024 ∧
    (parseParams "cat/512X768").height = 1024 ∧
    (parseParams "cat/512X768").negative_prompt = "512X768" := by
  refine ⟨?_, ?_, ?_⟩ <;> decide

/-- C5 (amended): a non-first segment of the shape `<digits>x<digits>` with
a lowercase `x` is interpreted as width×height, overriding the current
values and leaving the negative prompt untouched; the same shape with an
uppercase `X` is not recognized as a resolution and is instead handed to
the negative-prompt check. -/
theorem resolution_segment_lowercase :
    (∀ (st : ParseState) (w h : List Char),
        w ≠ [] → h ≠ [] →
        (∀ c ∈ w, c.isDigit = true) → (∀ c ∈ h, c.isDigit = true) →
        processPart st (w ++ 'x' :: h) =
          { st with width := digitsVal w, height := digitsVal h }) ∧
    (∀ (st : ParseState) (w h : List Char),
        (∀ c ∈ w, c.isDigit = true) → (∀ c ∈ h, c.isDigit = true) →
        processPart st (w ++ 'X' :: h) = negCheck st (w ++ 'X' :: h)) :=
  ⟨processPart_res, processPart_upper⟩

theorem resolution_segment_lowercase_witness :
    processPart ⟨"", 1024, 1024⟩ (['5'] ++ 'x' :: ['7']) =
      ⟨"", digitsVal ['5'], digitsVal ['7']⟩ ∧
    processPart ⟨"", 1024, 1024⟩ (['5'] ++ 'X' :: ['7']) =
      negCheck ⟨"", 1024, 1024⟩ (['5'] ++ 'X' :: ['7']) :=
  ⟨resolution_segment_lowercase.1 ⟨"", 1024, 1024⟩ ['5'] ['7']
      (by decide) (by decide) (by decide) (by decide),
   resolution_segment_lowercase.2 ⟨"", 1024, 1024⟩ ['5'] ['7'] (by decide) (by decide)⟩

/-- C6 counterexample: a malformed resolution segment does not always keep
the default resolution.  For `cat/512x` the guard passes, the split is
`["512", ""]`, `width = int("512")` is assigned, then `int("")` raises, so
the parse result has width 512 (height still 1024) and the segment also
becomes the negative prompt. -/
theorem partial_width_update :
    parseParams "cat/512x" = ⟨"cat", "512x", 512, 1024⟩ ∧
    (parseParams "cat/512x").width ≠ 1024 := by
  constructor <;> decide

/-- C6 (amended): the parser is total by construction and malformed
resolution segments are swallowed without failing, but the default
resolution is kept only when the failure happens before the first
assignment: a segment `<digits>x` (second split piece empty) overrides the
width and keeps the height, while segments `x<digits>` (first piece empty)
and `<digits>x<digits>x<digits>` (three pieces) leave both dimensions
unchanged; in each of these cases the segment then falls through to the
negative-prompt check. -/
theorem malformed_resolution :
    (∀ (st : ParseState) (w : List Char), w ≠ [] → (∀ c ∈ w, c.isDigit = true) →
        processPart st (w ++ ['x']) =
          negCheck { st with width := digitsVal w } (w ++ ['x'])) ∧
    (∀ (st : ParseState) (h : List Char), h ≠ [] → (∀ c ∈ h, c.isDigit = true) →
        processPart st ('x' :: h) = negCheck st ('x' :: h)) ∧
    (∀ (st : ParseState) (a b c : List Char), a ≠ [] →
        (∀ d ∈ a, d.isDigit = true) → (∀ d ∈ b, d.isDigit = true) →
        (∀ d ∈ c, d.isDigit = true) →
        processPart st (a ++ 'x' :: (b ++ 'x' :: c)) =
          negCheck st (a ++ 'x' :: (b ++ 'x' :: c))) :=
  ⟨processPart_width_only, processPart_lead_x, processPart_two_x⟩

theorem malformed_resolution_witness :
    processPart ⟨"", 1024, 1024⟩ (['5'] ++ ['x']) =
      negCheck ⟨"", digitsVal ['5'], 1024⟩ (['5'] ++ ['x']) ∧
    processPart ⟨"", 1024, 1024⟩ ('x' :: ['7']) =
      negCheck ⟨"", 1024, 1024⟩ ('x' :: ['7']) ∧
    processPart ⟨"", 1024, 1024⟩ (['5'] ++ 'x' :: (['6'] ++ 'x' :: ['7'])) =
      negCheck ⟨"", 1024, 1024⟩ (['5'] ++ 'x' :: (['6'] ++ 'x' :: ['7'])) :=
  ⟨malformed_resolution.1 ⟨"", 1024, 1024⟩ ['5'] (by decide) (by decide),
   malformed_resolution.2.1 ⟨"", 1024, 1024⟩ ['7'] (by decide) (by decide),
   malformed_resolution.2.2 ⟨"", 1024, 1024⟩ ['5'] ['6'] ['7'] (by decide)
     (by decide) (by decide) (by decide)⟩

/-- C10 counterexample: the last `<digits>x<digits>` segment does not always
determine the final width.  In `p/1x2/3x4/512x` the last such segment is
`3x4`, but the trailing malformed segment `512x` also passes the guard and
assigns `width = int('512')` before `int('')` raises, so the final size is
512×4, not 3×4. -/
theorem trailing_malformed_overrides_width :
    (parseParams "p/1x2/3x4/512x").width = 512 ∧
    (parseParams "p/1x2/3x4/512x").height = 4 ∧
    (parseParams "p/1x2/3x4/512x").width ≠ 3 := by
  refine ⟨?_, ?_, ?_⟩ <;> decide

/-- C10 (amended): each segment that passes the resolution guard overwrites
the dimensions in order, so the final width and height come from the last
guard-passing segment's successful assignments: a full `<digits>x<digits>`
segment followed only by guard-failing segments determines both dimensions
(in particular, of several full resolution segments the last wins), while a
later guard-passing malformed segment such as `<digits>x` can override the
width again; for negative-prompt candidates only the first is kept. -/
theorem last_resolution_first_negative :
    (∀ (st : ParseState) (pre post : List (List Char)) (w h : List Char),
        w ≠ [] → h ≠ [] →
        (∀ c ∈ w, c.isDigit = true) → (∀ c ∈ h, c.isDigit = true) →
        (∀ p ∈ post, resGuard (stripChars p) = false) →
        ((pre ++ (w ++ 'x' :: h) :: post).foldl processPart st).width = digitsVal w ∧
        ((pre ++ (w ++ 'x' :: h) :: post).foldl processPart st).height = digitsVal h) ∧
    (∀ (st : ParseState) (parts : List (List Char)),
        st.negative_prompt ≠ "" →
        (parts.foldl processPart st).negative_prompt = st.negative_prompt) := by
  constructor
  · intro st pre post w h hw hh hwd hhd hpost
    rw [List.foldl_append, List.foldl_cons, processPart_res _ w h hw hh hwd hhd]
    have h2 := foldl_wh_of_guard_false post
      { pre.foldl processPart st with width := digitsVal w, height := digitsVal h }
      hpost
    exact ⟨h2.1, h2.2⟩
  · exact fun st parts h => foldl_neg_preserved parts st h

theorem last_resolution_first_negative_witness :
    (([['1', 'x', '2']] ++ (['3'] ++ 'x' :: ['4']) :: [['b']]).foldl processPart
        ⟨"", 1024, 1024⟩).width = digitsVal ['3'] ∧
    (([['1', 'x', '2']] ++ (['3'] ++ 'x' :: ['4']) :: [['b']]).foldl processPart
        ⟨"", 1024, 1024⟩).height = digitsVal ['4'] ∧
    (([['b']]).foldl processPart ⟨"a", 1024, 1024⟩).negative_prompt = "a" :=
  ⟨(last_resolution_first_negative.1 ⟨"", 1024, 1024⟩ [['1', 'x', '2']] [['b']]
      ['3'] ['4'] (by decide) (by decide) (by decide) (by decide) (by decide)).1,
   (last_resolution_first_negative.1 ⟨"", 1024, 1024⟩ [['1', 'x', '2']] [['b']]
      ['3'] ['4'] (by decide) (by decide) (by decide) (by decide) (by decide)).2,
   last_resolution_first_negative.2 ⟨"a", 1024, 1024⟩ [['b']] (by decide)⟩

/-- C7: when the computed cache key has an entry, the gateway serves the
stored bytes as `image/jpeg`, leaves the cache unchanged, and never invokes
the upstream adapter `request_chutes_image` (lines 466-471). -/
theorem cache_hit_no_upstream (config : Config)
    (net : String → Payload → UpstreamResponse) (cache : Cache) (params : String)
    (data : List Nat)
    (hhit : check_cache cache (get_cache_key (parseParams params).prompt
      (parseParams params).negative_prompt (parseParams params).width
      (parseParams params).height) = some data) :
    generate_image config net cache params =
      (⟨200, "image/jpeg", Body.bytes data⟩, cache, false) := by
  simp only [generate_image]
  rw [hhit]

theorem cache_hit_no_upstream_witness :
    generate_image ⟨"key", "qwen-image", []⟩ (fun _ _ => ⟨200, "", []⟩)
      [(get_cache_key "cat" "" 1024 1024, [37])] "cat" =
      (⟨200, "image/jpeg", Body.bytes [37]⟩,
        [(get_cache_key "cat" "" 1024 1024, [37])], false) :=
  cache_hit_no_upstream ⟨"key", "qwen-image", []⟩ (fun _ _ => ⟨200, "", []⟩)
    [(get_cache_key "cat" "" 1024 1024, [37])] "cat" [37]
    (by rw [show parseParams "cat" = ⟨"cat", "", 1024, 1024⟩ from rfl]
        simp [check_cache, List.find?])

/-- C8: whenever the upstream generation fails with any adapter error, the
gateway leaves the cache exactly as it was — `save_to_cache` is reached only
on the success branch (lines 474-483). -/
theorem upstream_error_no_cache_write (config : Config)
    (net : String → Payload → UpstreamResponse) (cache : Cache) (params : String)
    (e : String)
    (herr : request_chutes_image (parseParams params).prompt
      (parseParams params).negative_prompt (parseParams params).width
      (parseParams params).height config net = Except.error e) :
    (generate_image config net cache params).2.1 = cache := by
  simp only [generate_image]
  cases hc : check_cache cache (get_cache_key (parseParams params).prompt
      (parseParams params).negative_prompt (parseParams params).width
      (parseParams params).height) with
  | some d => rfl
  | none => rw [herr]

theorem upstream_error_no_cache_write_witness :
    (generate_image ⟨"key", "qwen-image", []⟩ (fun _ _ => ⟨429, "", []⟩) [] "cat").2.1 = [] :=
  upstream_error_no_cache_write ⟨"key", "qwen-image", []⟩ (fun _ _ => ⟨429, "", []⟩)
    [] "cat" "Достигнут дневной лимит (429)." rfl

/-- C1 counterexample: with the upstream answering 429 on a fresh request,
the gateway's HTTP response has status 500, not 429 — every adapter failure
is surfaced through the single `except` branch of lines 481-483. -/
theorem upstream_429_status_not_429 :
    (generate_image ⟨"key", "qwen-image", []⟩ (fun _ _ => ⟨429, "", []⟩)
      [] "cat").1.status = 500 ∧
    (generate_image ⟨"key", "qwen-image", []⟩ (fun _ _ => ⟨429, "", []⟩)
      [] "cat").1.status ≠ 429 := by
  constructor <;> decide

/-- C1 (amended): upstream status 429 is classified as the rate-limit
failure (the distinguished message of line 416), and the gateway then
responds with HTTP status 500 — not 429 — carrying that message as a
non-empty plain-text body (lines 481-483 map every adapter error to 500). -/
theorem upstream_429_responds_500 (config : Config)
    (net : String → Payload → UpstreamResponse) (cache : Cache) (params : String)
    (hinfo : (get_model_info config.model_name config).isSome = true)
    (h429 : ∀ u p, (net u p).status = 429)
    (hmiss : check_cache cache (get_cache_key (parseParams params).prompt
      (parseParams params).negative_prompt (parseParams params).width
      (parseParams params).height) = none) :
    request_chutes_image (parseParams params).prompt (parseParams params).negative_prompt
      (parseParams params).width (parseParams params).height config net =
        Except.error "Достигнут дневной лимит (429)." ∧
    (generate_image config net cache params).1 =
      ⟨500, "text/plain; charset=utf-8", Body.text "Достигнут дневной лимит (429)."⟩ ∧
    ("Достигнут дневной лимит (429)." : String) ≠ "" := by
  obtain ⟨info, hi⟩ := Option.isSome_iff_exists.mp hinfo
  have hreq : request_chutes_image (parseParams params).prompt
      (parseParams params).negative_prompt (parseParams params).width
      (parseParams params).height config net =
      Except.error "Достигнут дневной лимит (429)." := by
    simp only [request_chutes_image, hi, h429]
    norm_num
  refine ⟨hreq, ?_, by decide⟩
  simp only [generate_image]
  rw [hmiss, hreq]

theorem upstream_429_responds_500_witness :
    request_chutes_image (parseParams "cat").prompt (parseParams "cat").negative_prompt
      (parseParams "cat").width (parseParams "cat").height ⟨"key", "qwen-image", []⟩
      (fun _ _ => ⟨429, "", []⟩) = Except.error "Достигнут дневной лимит (429)." ∧
    (generate_image ⟨"key", "qwen-image", []⟩ (fun _ _ => ⟨429, "", []⟩) [] "cat").1 =
      ⟨500, "text/plain; charset=utf-8", Body.text "Достигнут дневной лимит (429)."⟩ ∧
    ("Достигнут дневной лимит (429)." : String) ≠ "" :=
  upstream_429_responds_500 ⟨"key", "qwen-image", []⟩ (fun _ _ => ⟨429, "", []⟩) [] "cat"
    (by decide) (fun u p => rfl) rfl

/-- A learned profile whose inferred identity is Unified is fully
determined: lines 149-151 force `supports_negative = True` and
`resolution_format = "standard"`, and the unified branch of lines 124-126
never sets a URL template. -/
theorem parse_curl_request_unified (mn txt : String) (re : Option String)
    (h : (parse_curl_request mn txt re).type = "unified") :
    parse_curl_request mn txt re =
      { type := "unified", url_template := "", supports_negative := some true,
        resolution_format := some "standard" } := by
  unfold parse_curl_request at h ⊢
  by_cases h1 : pySubstring "image.chutes.ai/generate" txt = true
  · simp [h1]
  · by_cases h2 : pySubstring ".chutes.ai/generate" txt = true
    · simp [h1, h2] at h
    · simp [h1, h2] at h

/-- C9: for every Unified-identity profile the program can serve — a
built-in profile of `KNOWN_MODELS` or a custom profile learned from an
example request by `parse_curl_request` — a request with model `m`, prompt
`p`, non-empty negative prompt `n` and resolution 512×512 produces an
upstream payload with `model = m`, `prompt = p`, `negative_prompt = n`,
`width = 512` and `height = 512` (resolution is emitted as separate
width/height fields, with the fixed defaults `num_inference_steps = 20` and
`guidance_scale = 7.5`). -/
theorem unified_payload (model_name prompt negative : String) (info : ModelInfo)
    (hsrc : (model_name, info) ∈ KNOWN_MODELS ∨
      ∃ mn txt re, info = parse_curl_request mn txt re)
    (hty : info.type = "unified")
    (hneg : negative ≠ "") :
    buildPayload model_name info prompt negative 512 512 =
      ⟨prompt, some model_name, some negative, some 512, some 512, none, 20, 75⟩ := by
  rcases hsrc with hmem | ⟨mn, txt, re, rfl⟩
  · fin_cases hmem <;>
      first
        | (exact absurd hty (by decide))
        | (simp [buildPayload, hneg])
  · rw [parse_curl_request_unified mn txt re hty]
    simp [buildPayload, hneg]

theorem unified_payload_witness :
    buildPayload "qwen-image" { type := "unified" } "p" "n" 512 512 =
      ⟨"p", some "qwen-image", some "n", some 512, some 512, none, 20, 75⟩ ∧
    buildPayload "mymodel"
      (parse_curl_request "mymodel"
        "curl https://image.chutes.ai/generate -d prompt negative_prompt" none)
      "p" "n" 512 512 =
      ⟨"p", some "mymodel", some "n", some 512, some 512, none, 20, 75⟩ :=
  ⟨unified_payload "qwen-image" "p" "n" { type := "unified" }
      (Or.inl (by decide)) rfl (by decide),
   unified_payload "mymodel" "p" "n"
      (parse_curl_request "mymodel"
        "curl https://image.chutes.ai/generate -d prompt negative_prompt" none)
      (Or.inr ⟨"mymodel",
        "curl https://image.chutes.ai/generate -d prompt negative_prompt", none, rfl⟩)
      (by decide) (by decide)⟩
